import Mathlib

/-!
Shallow embedding of the nearby-station resolution and ranking pipeline of
the fuel_price_predicator repository:

* `src/frontend/src/utils/distance.js` (src/unnamed/part_000):
  `calculateDistance`, `parseCoordinates`, `sortByDistance`;
* `src/frontend/src/components/PostalCodeSearch.js`: the postal-code
  validation and center resolution of `handleSearch`, and the
  filter / radius-relaxation / distance-price sort / take-10 ranking shared
  verbatim by `handleSearch` and `handleUseMyLocation`;
* `src/frontend/src/utils/overpass.js`: `fetchOSMFuelStations`,
  `enrichStationsWithBrands`, `calculateDistanceMeters`.

Modelling conventions:

* JS numbers are embedded as exact numbers: coordinates and prices as `ℚ`
  (every concrete JS numeric literal is rational), computed distances in a
  linear ordered field `α` (instantiated with `ℝ` for the actual
  haversine distance, with `ℚ` for executable witnesses).  The JS value
  `Infinity`, which `sortByDistance` assigns to stations with unparseable
  coordinates, is embedded as `none : Option α`; a finite distance `x` as
  `some x`.  The comparator semantics of `a.distance - b.distance` on
  `Infinity` (and the ECMAScript rule that a comparator result of `NaN`,
  from `Infinity - Infinity`, counts as `0`) are spelled out case by case
  in `leDistOpt` and `leRank`.
* A station's fuel-price field `s[fuelPriceField]` is embedded as `FVal`:
  `FVal.null` for `null`/`undefined` (both rejected by `!= null`),
  `FVal.empty` for the empty string, `FVal.num q` for a numeric price.
  The JS expression `(a[fuelPriceField] || 999)` maps the falsy values
  `null`, `undefined`, `''` and `0` to `999` (`priceOr999`).
* `Array.prototype.sort` is embedded twice.  (a) `jsSort` is a stable
  insertion sort with `le a b` meaning `comparator(a,b) <= 0`: for a
  CONSISTENT comparator ECMA-262 (since ES2019) fully specifies the sorted
  order — the unique stable one, which `jsSort` computes — so facts that
  depend on the order only through the consistent first-phase comparator
  `leDistS`, or not at all (membership, filtering, counting), are engine
  independent.  (b) The final ranking comparator `leRank`/`cmpRank` is NOT
  consistent (distance ties broken by price are not transitive across the
  5 km threshold), and for it ECMA-262 leaves the order implementation
  defined; order-sensitive statements are therefore settled against
  `v8Sort`, a faithful embedding of V8's TimSort in its no-merge regime:
  for arrays shorter than 64 elements `ComputeMinRunLength` returns the
  length, so V8 performs exactly one `CountAndMakeRun` (reversing an
  initial strictly-descending run) followed by one `BinaryInsertionSort`
  pass, with no run merging.  `v8Run`/`v8Rest`/`binSearchAux` mirror that
  code path; inputs of 64 elements or more additionally merge runs, which
  is not modelled, so V8-model statements carry an explicit length bound.
* External effects are parameters: the Overpass fetch outcome is a
  `FetchResult` argument, the haversine-in-meters matching distance of the
  enricher is a function argument `dm` (instantiated with
  `calculateDistanceMeters` over `ℝ`).  The 24-hour cache of
  `fetchOSMFuelStations` only memoises the fetch and is not modelled.
* `enrichStationsWithBrands` never throws: `fetchOSMFuelStations` catches
  every fetch error and returns `[]`, and the enricher's own `try`/`catch`
  returns the input list; the embedding is therefore a total function.
-/

namespace FuelFinder

/-- Value of a station's fuel-price field `s[fuelPriceField]`:
`null` covers JS `null` and `undefined`, `empty` the empty string,
`num q` a numeric price. -/
inductive FVal where
  | null : FVal
  | empty : FVal
  | num : ℚ → FVal
deriving DecidableEq

/-- A government-API station record, restricted to the fields the pipeline
reads.  `price` is the selected fuel's price field `s[fuelPriceField]`;
`distance` is the field written by `sortByDistance` (`none` embeds both
"not yet set" and `Infinity`).  The distance scalar `α` is `ℝ` in the
real pipeline and `ℚ` in executable witnesses. -/
structure Station (α : Type) where
  cp : String
  ville : String
  adresse : String
  geom : Option (ℚ × ℚ)
  latitude : Option ℚ
  longitude : Option ℚ
  price : FVal
  brand : Option String
  brandSource : Option String
  distance : Option α
deriving DecidableEq

/-- distance.js `parseCoordinates`: prefer the `geom` array, else the
`latitude`/`longitude` strings scaled by 1/100000, else `null`. -/
def parseCoordinates {α : Type} (s : Station α) : Option (ℚ × ℚ) :=
  match s.geom with
  | some g => some g
  | none =>
    match s.latitude, s.longitude with
    | some la, some lo => some (la / 100000, lo / 100000)
    | _, _ => none

/-- The filter `s[fuelPriceField] != null && s[fuelPriceField] !== ''` of
`handleSearch` / `handleUseMyLocation`. -/
def priceFilter : FVal → Bool
  | FVal.null => false
  | FVal.empty => false
  | FVal.num _ => true

/-- The JS expression `(s[fuelPriceField] || 999)` used by the ranking
comparator: `null`, `undefined`, `''` and `0` are falsy and become `999`. -/
def priceOr999 : FVal → ℚ
  | FVal.num q => if q = 0 then 999 else q
  | _ => 999

/-- The distance test `s.distance <= k` of the radius filters; `Infinity <= k`
is false. -/
def distLe {α : Type} [LinearOrder α] : Option α → α → Bool
  | some x, k => decide (x ≤ k)
  | none, _ => false

/-- Stable insertion step of the `Array.prototype.sort` model: `a` is placed
before the first element `b` with `comparator(a,b) <= 0`. -/
def jsInsert {β : Type} (le : β → β → Bool) (a : β) : List β → List β
  | [] => [a]
  | b :: l => if le a b then a :: b :: l else b :: jsInsert le a l

/-- Model of `Array.prototype.sort(comparator)`: a stable insertion sort,
where `le a b` means `comparator(a,b) <= 0`. -/
def jsSort {β : Type} (le : β → β → Bool) : List β → List β
  | [] => []
  | a :: l => jsInsert le a (jsSort le l)

/-- The `sortByDistance` comparator `(a, b) => a.distance - b.distance` as a
"result ≤ 0" test on embedded distances: `Infinity - x = Infinity` (not ≤ 0),
`x - Infinity = -Infinity` (≤ 0), and `Infinity - Infinity = NaN`, which
ECMA-262 makes the sort treat as `0` (≤ 0). -/
def leDistOpt {α : Type} [LinearOrder α] : Option α → Option α → Bool
  | some x, some y => decide (x ≤ y)
  | some _, none => true
  | none, some _ => false
  | none, none => true

/-- `leDistOpt` lifted to annotated stations. -/
def leDistS {α : Type} [LinearOrder α] (a b : Station α) : Bool :=
  leDistOpt a.distance b.distance

/-- The final ranking comparator of `handleSearch` / `handleUseMyLocation`
as a "result ≤ 0" test:
`distDiff = a.distance - b.distance; if (Math.abs(distDiff) > 5) return
distDiff; return (a[f] || 999) - (b[f] || 999)`.
For `Infinity` distances: `Math.abs(±Infinity) > 5` holds, so the sign of
the difference decides; `Math.abs(NaN) > 5` is false, so two `Infinity`
distances fall through to the price comparison. -/
def leRank {α : Type} [LinearOrderedField α] (a b : Station α) : Bool :=
  match a.distance, b.distance with
  | some x, some y =>
    if 5 < |x - y| then decide (x ≤ y)
    else decide (priceOr999 a.price ≤ priceOr999 b.price)
  | some _, none => true
  | none, some _ => false
  | none, none => decide (priceOr999 a.price ≤ priceOr999 b.price)

/-- The `.map(station => ({...station, distance}))` stage of
`sortByDistance`, with the computed distance abstracted as `d` (`none`
embeds the `Infinity` of the unparseable-coordinates branch). -/
def annotate {α : Type} (d : Station α → Option α) (stations : List (Station α)) :
    List (Station α) :=
  stations.map fun s => { s with distance := d s }

/-- distance.js `sortByDistance`, generic in the distance computation `d`;
the concrete instantiation `sortByDistance` below plugs in the haversine
distance from the reference point. -/
def sortByDistanceWith {α : Type} [LinearOrder α] (d : Station α → Option α)
    (stations : List (Station α)) : List (Station α) :=
  jsSort leDistS (annotate d stations)

/-- One radius filter of `handleSearch` / `handleUseMyLocation`:
price field non-null and non-empty, and distance at most `radius`. -/
def passFilter {α : Type} [LinearOrder α] (radius : α) (s : Station α) : Bool :=
  priceFilter s.price && distLe s.distance radius

/-- The candidate set of `handleSearch` / `handleUseMyLocation` before the
final ordering: the 50 km filtered set, recomputed from scratch at 100 km
when fewer than 5 stations survive. -/
def candidatesWith {α : Type} [LinearOrderedField α] (d : Station α → Option α)
    (allStations : List (Station α)) : List (Station α) :=
  if ((sortByDistanceWith d allStations).filter (passFilter 50)).length < 5 then
    (sortByDistanceWith d allStations).filter (passFilter 100)
  else (sortByDistanceWith d allStations).filter (passFilter 50)

/-- The full ranking pipeline shared by `handleSearch` (postal-code path)
and `handleUseMyLocation` (geolocation path): distance sort, price/radius
filter with 100 km relaxation, distance-then-price sort, first 10. -/
def rankWith {α : Type} [LinearOrderedField α] (d : Station α → Option α)
    (allStations : List (Station α)) : List (Station α) :=
  (jsSort leRank (candidatesWith d allStations)).take 10

/-- Degrees to radians, as in distance.js / overpass.js `toRad`. -/
noncomputable def toRad (degrees : ℝ) : ℝ := degrees * (Real.pi / 180)

/-- JS `Math.atan2 y x` on the real numbers (the embedding only ever applies
it to non-negative square roots, but it is defined on all quadrants;
`atan2 0 0 = 0` as in JS). -/
noncomputable def atan2 (y x : ℝ) : ℝ :=
  if 0 < x then Real.arctan (y / x)
  else if x < 0 ∧ 0 ≤ y then Real.arctan (y / x) + Real.pi
  else if x < 0 ∧ y < 0 then Real.arctan (y / x) - Real.pi
  else if x = 0 ∧ 0 < y then Real.pi / 2
  else if x = 0 ∧ y < 0 then -(Real.pi / 2)
  else 0

/-- distance.js `calculateDistance`: haversine distance in kilometres with
Earth radius 6371 km, on idealised real arithmetic. -/
noncomputable def calculateDistance (lat1 lon1 lat2 lon2 : ℝ) : ℝ :=
  let R : ℝ := 6371
  let dLat := toRad (lat2 - lat1)
  let dLon := toRad (lon2 - lon1)
  let a := Real.sin (dLat / 2) * Real.sin (dLat / 2) +
    Real.cos (toRad lat1) * Real.cos (toRad lat2) *
    Real.sin (dLon / 2) * Real.sin (dLon / 2)
  let c := 2 * atan2 (Real.sqrt a) (Real.sqrt (1 - a))
  R * c

/-- overpass.js `calculateDistanceMeters`: the same haversine formula with
Earth radius 6,371,000 m. -/
noncomputable def calculateDistanceMeters (lat1 lon1 lat2 lon2 : ℝ) : ℝ :=
  let R : ℝ := 6371000
  let dLat := toRad (lat2 - lat1)
  let dLon := toRad (lon2 - lon1)
  let a := Real.sin (dLat / 2) * Real.sin (dLat / 2) +
    Real.cos (toRad lat1) * Real.cos (toRad lat2) *
    Real.sin (dLon / 2) * Real.sin (dLon / 2)
  let c := 2 * atan2 (Real.sqrt a) (Real.sqrt (1 - a))
  R * c

/-- The haversine distance from the reference point, `none` when the
station's coordinates do not parse — exactly the per-station computation
inside `sortByDistance`. -/
noncomputable def distReal (refLat refLon : ℝ) (s : Station ℝ) : Option ℝ :=
  (parseCoordinates s).map fun c => calculateDistance refLat refLon (c.1 : ℝ) (c.2 : ℝ)

/-- distance.js `sortByDistance` with the real haversine distance. -/
noncomputable def sortByDistance (stations : List (Station ℝ)) (refLat refLon : ℝ) :
    List (Station ℝ) :=
  sortByDistanceWith (distReal refLat refLon) stations

/-- The concrete ranking pipeline of `handleSearch` / `handleUseMyLocation`
for a resolved center `(refLat, refLon)`. -/
noncomputable def rankStations (allStations : List (Station ℝ)) (refLat refLon : ℝ) :
    List (Station ℝ) :=
  rankWith (distReal refLat refLon) allStations

/-- Outcome of the first phase of `handleSearch` (PostalCodeSearch.js lines
32-77): rejected by the length-5 validation, resolved locally from the first
matching station with parseable coordinates, or handed to the external
geocoding service (`geocode pc` is the `fetch` of geo.api.gouv.fr — the
only external call of this phase). -/
inductive SearchAction where
  | rejectInvalid : SearchAction
  | localSearch : ℚ → ℚ → SearchAction
  | geocode : String → SearchAction
deriving DecidableEq

/-- The validation and center-resolution phase of `handleSearch`:
`if (!postalCode || postalCode.length !== 5)` rejects; otherwise the
stations with `cp === postalCode` are scanned, the first one with parseable
coordinates gives the center, and `if (!centerLat)` (false also for a
centre latitude of exactly 0, which is falsy) falls through to geocoding. -/
def resolveCenter {α : Type} (pc : String) (allStations : List (Station α)) :
    SearchAction :=
  if pc = "" ∨ pc.length ≠ 5 then SearchAction.rejectInvalid
  else
    let matching := allStations.filter fun s => s.cp == pc
    let withCoords := matching.filter fun s => (parseCoordinates s).isSome
    let center : Option (ℚ × ℚ) :=
      match withCoords with
      | [] => none
      | s :: _ => parseCoordinates s
    match center with
    | some c => if c.1 = 0 then SearchAction.geocode pc else SearchAction.localSearch c.1 c.2
    | none => SearchAction.geocode pc

/-- The spec's notion of a well-formed postal code: exactly 5 digits.
(Stated from the spec's words, to compare with what the code checks.) -/
def isFiveDigitCode (pc : String) : Bool :=
  pc.data.length == 5 && pc.data.all Char.isDigit

/-- The OSM tags an Overpass element can carry (`element.tags || {}`);
`none` embeds an absent tag. -/
structure OSMTags where
  brand : Option String
  brandWikidata : Option String
  name : Option String
  operator : Option String
  ref : Option String
deriving DecidableEq

/-- A raw Overpass element: id, resolved coordinates
(`element.center || {lat: element.lat, lon: element.lon}`), tags. -/
structure OSMElement where
  id : ℕ
  lat : ℚ
  lon : ℚ
  tags : OSMTags
deriving DecidableEq

/-- A processed OSM station as built by `fetchOSMFuelStations`. -/
structure OSMStation where
  osmId : ℕ
  lat : ℚ
  lon : ℚ
  brand : Option String
  name : Option String
  operator : Option String
  ref : Option String
  displayName : Option String
deriving DecidableEq

/-- JS `a || b` on optional strings: an absent value and the empty string
are falsy. -/
def jsOr (a b : Option String) : Option String :=
  match a with
  | none => b
  | some s => if s = "" then b else some s

/-- The element-to-station mapping inside `fetchOSMFuelStations`:
`brand: tags.brand || tags['brand:wikidata'] || null`,
`displayName: tags.brand || tags.operator || tags.name || null`. -/
def processElement (e : OSMElement) : OSMStation :=
  { osmId := e.id
    lat := e.lat
    lon := e.lon
    brand := jsOr e.tags.brand e.tags.brandWikidata
    name := e.tags.name
    operator := e.tags.operator
    ref := e.tags.ref
    displayName := jsOr e.tags.brand (jsOr e.tags.operator e.tags.name) }

/-- Outcome of the Overpass `fetch`: a parsed element list, a non-2xx
response (`!response.ok`), or a network error. -/
inductive FetchResult where
  | ok : List OSMElement → FetchResult
  | httpError : ℕ → FetchResult
  | networkError : FetchResult
deriving DecidableEq

/-- overpass.js `fetchOSMFuelStations`: maps the elements of a successful
response; its `try`/`catch` turns the thrown `Overpass API error` of a
non-2xx response, and any network error, into `[]`.  (The 24-hour cache
only memoises this pure result and is not modelled.) -/
def fetchOSMFuelStations (r : FetchResult) : List OSMStation :=
  match r with
  | FetchResult.ok es => es.map processElement
  | FetchResult.httpError _ => []
  | FetchResult.networkError => []

/-- The `forEach` loop of `enrichStationsWithBrands` that tracks the closest
OSM station: starting from `closestOSM = null`, `minDistance = Infinity`,
an OSM station replaces the current best iff
`distance < 100 && distance < minDistance`.  `dm` is the matching distance
(`calculateDistanceMeters` in the source), `γ` its scalar type. -/
def closerStep {γ : Type} [LinearOrderedField γ] (dm : ℚ × ℚ → OSMStation → γ)
    (c : ℚ × ℚ) (acc : Option (OSMStation × γ)) (osmStation : OSMStation) :
    Option (OSMStation × γ) :=
  match acc with
  | none => if dm c osmStation < 100 then some (osmStation, dm c osmStation) else none
  | some (closestOSM, minDistance) =>
    if dm c osmStation < 100 ∧ dm c osmStation < minDistance then
      some (osmStation, dm c osmStation)
    else some (closestOSM, minDistance)

def findClosestOSM {γ : Type} [LinearOrderedField γ] (dm : ℚ × ℚ → OSMStation → γ)
    (c : ℚ × ℚ) (osmStations : List OSMStation) : Option (OSMStation × γ) :=
  osmStations.foldl (closerStep dm c) none

/-- The per-station body of the `apiStations.map` in
`enrichStationsWithBrands`: unparseable coordinates pass the station
through; otherwise the closest OSM station within 100 m contributes its
`displayName` (when truthy) as `brand`, with `brandSource: 'osm'`. -/
def enrichOne {α γ : Type} [LinearOrderedField γ] (dm : ℚ × ℚ → OSMStation → γ)
    (osmStations : List OSMStation) (s : Station α) : Station α :=
  match parseCoordinates s with
  | none => s
  | some c =>
    match findClosestOSM dm c osmStations with
    | some (closestOSM, _) =>
      match closestOSM.displayName with
      | some n =>
        if n = "" then s
        else { s with brand := some n, brandSource := some "osm" }
      | none => s
    | none => s

/-- overpass.js `enrichStationsWithBrands`, with the fetch outcome `r` and
the matching distance `dm` as parameters: an empty input, a failed fetch or
an empty OSM result set return the input list unchanged (the function never
throws — see the header comment). -/
def enrichStationsWithBrands {α γ : Type} [LinearOrderedField γ]
    (dm : ℚ × ℚ → OSMStation → γ) (r : FetchResult) (apiStations : List (Station α)) :
    List (Station α) :=
  if apiStations.isEmpty then apiStations
  else if (fetchOSMFuelStations r).isEmpty then apiStations
  else apiStations.map (enrichOne dm (fetchOSMFuelStations r))

/-- The enricher as actually instantiated: matching by
`calculateDistanceMeters` from the candidate's parsed coordinates. -/
noncomputable def enrichStationsReal (r : FetchResult) (apiStations : List (Station ℝ)) :
    List (Station ℝ) :=
  enrichStationsWithBrands
    (fun c p => calculateDistanceMeters (c.1 : ℝ) (c.2 : ℝ) (p.lat : ℝ) (p.lon : ℝ))
    r apiStations

/-- Agreement on every `Station` field except `brand` and `brandSource`. -/
def sameFrame {α : Type} (s t : Station α) : Prop :=
  s.cp = t.cp ∧ s.ville = t.ville ∧ s.adresse = t.adresse ∧ s.geom = t.geom ∧
    s.latitude = t.latitude ∧ s.longitude = t.longitude ∧ s.price = t.price ∧
    s.distance = t.distance

/-- The ordering property of claim C1 between a pair of the result list:
when the two computed distances differ by more than 5, the earlier station
is the closer one. -/
def farOrdered {α : Type} [LinearOrderedField α] (x y : Station α) : Prop :=
  ∀ dx dy, x.distance = some dx → y.distance = some dy → 5 < |dx - dy| → dx < dy

/-- The ordering property of claim C2 between a pair of the result list:
when the two computed distances differ by at most 5, the earlier station
has the lower `(price || 999)`. -/
def nearPriceOrdered {α : Type} [LinearOrderedField α] (x y : Station α) : Prop :=
  ∀ dx dy, x.distance = some dx → y.distance = some dy → |dx - dy| ≤ 5 →
    priceOr999 x.price ≤ priceOr999 y.price

/-- Counterexample station for claim C2 at the search center: distance
0 km, price 1.80. -/
def cexA : Station ℝ :=
  { cp := "75001", ville := "A", adresse := "1 rue a", geom := some (0, 0),
    latitude := none, longitude := none, price := FVal.num (18 / 10),
    brand := none, brandSource := none, distance := none }

/-- Counterexample station about 4 km north of the center, price 1.75. -/
def cexB : Station ℝ :=
  { cp := "75002", ville := "B", adresse := "2 rue b", geom := some (36 / 1000, 0),
    latitude := none, longitude := none, price := FVal.num (175 / 100),
    brand := none, brandSource := none, distance := none }

/-- Counterexample station about 8 km north of the center, price 1.70. -/
def cexC : Station ℝ :=
  { cp := "75003", ville := "C", adresse := "3 rue c", geom := some (72 / 1000, 0),
    latitude := none, longitude := none, price := FVal.num (17 / 10),
    brand := none, brandSource := none, distance := none }

/-- The pipeline's computed distance of `cexA` from center (0, 0). -/
noncomputable def cexDistA : ℝ :=
  calculateDistance 0 0 (((0 : ℚ) : ℝ)) (((0 : ℚ) : ℝ))

/-- The pipeline's computed distance of `cexB` from center (0, 0)
(about 4.003 km). -/
noncomputable def cexDistB : ℝ :=
  calculateDistance 0 0 (((36 / 1000 : ℚ) : ℝ)) (((0 : ℚ) : ℝ))

/-- The pipeline's computed distance of `cexC` from center (0, 0)
(about 8.007 km). -/
noncomputable def cexDistC : ℝ :=
  calculateDistance 0 0 (((72 / 1000 : ℚ) : ℝ)) (((0 : ℚ) : ℝ))

/-- `cexA` as annotated by `sortByDistance`. -/
noncomputable def cexAr : Station ℝ := { cexA with distance := some cexDistA }

/-- `cexB` as annotated by `sortByDistance`. -/
noncomputable def cexBr : Station ℝ := { cexB with distance := some cexDistB }

/-- `cexC` as annotated by `sortByDistance`. -/
noncomputable def cexCr : Station ℝ := { cexC with distance := some cexDistC }

/-- Concrete station used by the executable witnesses of the enrichment
claims. -/
def wStation : Station ℚ :=
  { cp := "69001", ville := "Lyon", adresse := "1 rue w", geom := some (5, 6),
    latitude := none, longitude := none, price := FVal.num (165 / 100),
    brand := some "Esso", brandSource := none, distance := none }

/-- A point of interest whose witness matching distance is 80 m. -/
def wPoi80 : OSMStation :=
  { osmId := 1, lat := 80, lon := 0, brand := some "Total", name := none,
    operator := none, ref := none, displayName := some "Total" }

/-- A point of interest whose witness matching distance is 150 m. -/
def wPoi150 : OSMStation :=
  { osmId := 2, lat := 150, lon := 0, brand := some "Shell", name := none,
    operator := none, ref := none, displayName := some "Shell" }

/-- Witness matching distance: reads the distance off the point of
interest's `lat` field (the matching distance is a parameter of the
embedding, so any function is a valid instance). -/
def wDm : ℚ × ℚ → OSMStation → ℚ := fun _ p => p.lat

/-- Concrete coordinate-free station used by the witness of claim C8. -/
def w8Station : Station ℝ :=
  { cp := "13001", ville := "Marseille", adresse := "2 rue w",
    geom := none, latitude := none, longitude := none, price := FVal.num 2,
    brand := none, brandSource := none, distance := none }

/-- Three-way sign of a JS numeric comparator result `x - y`. -/
def ord3 {α : Type} [LinearOrder α] (x y : α) : Ordering :=
  if x < y then Ordering.lt else if y < x then Ordering.gt else Ordering.eq

/-- The `sortByDistance` comparator `a.distance - b.distance` as a
three-way sign (see `leDistOpt` for the `Infinity`/`NaN` conventions). -/
def cmpDistS {α : Type} [LinearOrder α] (a b : Station α) : Ordering :=
  match a.distance, b.distance with
  | some x, some y => ord3 x y
  | some _, none => Ordering.lt
  | none, some _ => Ordering.gt
  | none, none => Ordering.eq

/-- The final ranking comparator as a three-way sign (see `leRank` for the
branch conventions). -/
def cmpRank {α : Type} [LinearOrderedField α] (a b : Station α) : Ordering :=
  match a.distance, b.distance with
  | some x, some y =>
    if 5 < |x - y| then ord3 x y
    else ord3 (priceOr999 a.price) (priceOr999 b.price)
  | some _, none => Ordering.lt
  | none, some _ => Ordering.gt
  | none, none => ord3 (priceOr999 a.price) (priceOr999 b.price)

/-- The non-descending branch of V8 TimSort's `CountAndMakeRun`: extend the
run while `comparator(current, previous) >= 0`. -/
def ascRun {β : Type} (cmp : β → β → Ordering) (prev : β) : List β → List β
  | [] => []
  | b :: t => if cmp b prev = Ordering.lt then [] else b :: ascRun cmp b t

/-- The elements `ascRun` does not consume. -/
def ascRest {β : Type} (cmp : β → β → Ordering) (prev : β) : List β → List β
  | [] => []
  | b :: t => if cmp b prev = Ordering.lt then b :: t else ascRest cmp b t

/-- The strictly-descending branch of `CountAndMakeRun`: extend while
`comparator(current, previous) < 0`. -/
def descRun {β : Type} (cmp : β → β → Ordering) (prev : β) : List β → List β
  | [] => []
  | b :: t => if cmp b prev = Ordering.lt then b :: descRun cmp b t else []

/-- The elements `descRun` does not consume. -/
def descRest {β : Type} (cmp : β → β → Ordering) (prev : β) : List β → List β
  | [] => []
  | b :: t => if cmp b prev = Ordering.lt then descRest cmp b t else b :: t

/-- V8 TimSort's `CountAndMakeRun`: the initial maximal non-descending run,
or the initial maximal strictly-descending run reversed in place. -/
def v8Run {β : Type} (cmp : β → β → Ordering) : List β → List β
  | [] => []
  | [a] => [a]
  | a :: b :: t =>
    if cmp b a = Ordering.lt then (a :: b :: descRun cmp b t).reverse
    else a :: b :: ascRun cmp b t

/-- The input elements that are not part of the initial run. -/
def v8Rest {β : Type} (cmp : β → β → Ordering) : List β → List β
  | [] => []
  | [_] => []
  | a :: b :: t =>
    if cmp b a = Ordering.lt then descRest cmp b t else ascRest cmp b t

/-- The binary search of V8's `BinaryInsertionSort`:
`mid = left + ((right - left) >> 1)`; `comparator(pivot, a[mid]) < 0` moves
`right` to `mid`, anything else moves `left` past `mid`.  The interval
shrinks at every step, so `right - left` steps of fuel suffice. -/
def binSearchAux {β : Type} (cmp : β → β → Ordering) (pivot : β) (l : List β) :
    ℕ → ℕ → ℕ → ℕ
  | 0, left, _ => left
  | fuel + 1, left, right =>
    if left < right then
      match l[left + (right - left) / 2]? with
      | some x =>
        if cmp pivot x = Ordering.lt then
          binSearchAux cmp pivot l fuel left (left + (right - left) / 2)
        else binSearchAux cmp pivot l fuel (left + (right - left) / 2 + 1) right
      | none => left
    else left

/-- One step of `BinaryInsertionSort`: binary-search the pivot's position
in the sorted prefix and splice it in. -/
def binInsertOne {β : Type} (cmp : β → β → Ordering) (sorted : List β) (pivot : β) :
    List β :=
  sorted.take (binSearchAux cmp pivot sorted sorted.length 0 sorted.length) ++
    pivot :: sorted.drop (binSearchAux cmp pivot sorted sorted.length 0 sorted.length)

/-- `BinaryInsertionSort` of the remaining elements into the initial run. -/
def binInsertAll {β : Type} (cmp : β → β → Ordering) : List β → List β → List β
  | sorted, [] => sorted
  | sorted, x :: rest => binInsertAll cmp (binInsertOne cmp sorted x) rest

/-- V8's TimSort (the sort behind `Array.prototype.sort`) in its no-merge
regime: for arrays shorter than 64, `ComputeMinRunLength` returns the
array length, so the whole sort is one `CountAndMakeRun` followed by one
`BinaryInsertionSort` pass and the merge machinery never runs.  This
function is therefore exactly V8's sort for inputs shorter than 64
elements; longer inputs additionally merge runs, which is not modelled. -/
def v8Sort {β : Type} (cmp : β → β → Ordering) (l : List β) : List β :=
  binInsertAll cmp (v8Run cmp l) (v8Rest cmp l)

/-- `sortByDistance` with `Array.prototype.sort` modelled as V8's TimSort. -/
def sortByDistanceV8 {α : Type} [LinearOrder α] (d : Station α → Option α)
    (stations : List (Station α)) : List (Station α) :=
  v8Sort cmpDistS (annotate d stations)

/-- The candidate set of the pipeline, with both sorts modelled as V8's
TimSort. -/
def candidatesV8 {α : Type} [LinearOrderedField α] (d : Station α → Option α)
    (allStations : List (Station α)) : List (Station α) :=
  if ((sortByDistanceV8 d allStations).filter (passFilter 50)).length < 5 then
    (sortByDistanceV8 d allStations).filter (passFilter 100)
  else (sortByDistanceV8 d allStations).filter (passFilter 50)

/-- The full ranking pipeline with `Array.prototype.sort` modelled as V8's
TimSort (`v8Sort`). -/
def rankWithV8 {α : Type} [LinearOrderedField α] (d : Station α → Option α)
    (allStations : List (Station α)) : List (Station α) :=
  (v8Sort cmpRank (candidatesV8 d allStations)).take 10

/-- The concrete V8-modelled ranking pipeline for a resolved center. -/
noncomputable def rankStationsV8 (allStations : List (Station ℝ)) (refLat refLon : ℝ) :
    List (Station ℝ) :=
  rankWithV8 (distReal refLat refLon) allStations

/-- Station at the center (0 km), price 1.80, for the C2 counterexample. -/
def cexP1 : Station ℝ :=
  { cp := "75011", ville := "P1", adresse := "1 rue p", geom := some (0, 0),
    latitude := none, longitude := none, price := FVal.num (18 / 10),
    brand := none, brandSource := none, distance := none }

/-- Station about 1 km north, price 1.90, for the C2 counterexample. -/
def cexP2 : Station ℝ :=
  { cp := "75012", ville := "P2", adresse := "2 rue p", geom := some (9 / 1000, 0),
    latitude := none, longitude := none, price := FVal.num (19 / 10),
    brand := none, brandSource := none, distance := none }

/-- Station about 2 km north, price 1.70, for the C2 counterexample. -/
def cexP3 : Station ℝ :=
  { cp := "75013", ville := "P3", adresse := "3 rue p", geom := some (18 / 1000, 0),
    latitude := none, longitude := none, price := FVal.num (17 / 10),
    brand := none, brandSource := none, distance := none }

/-- Station about 6.45 km north, price 1.60, for the C2 counterexample. -/
def cexP4 : Station ℝ :=
  { cp := "75014", ville := "P4", adresse := "4 rue p", geom := some (58 / 1000, 0),
    latitude := none, longitude := none, price := FVal.num (16 / 10),
    brand := none, brandSource := none, distance := none }

/-- The pipeline's computed distance of `cexP1` (exactly 0 km). -/
noncomputable def cexPDist1 : ℝ :=
  calculateDistance 0 0 (((0 : ℚ) : ℝ)) (((0 : ℚ) : ℝ))

/-- The pipeline's computed distance of `cexP2` (about 1.0008 km). -/
noncomputable def cexPDist2 : ℝ :=
  calculateDistance 0 0 (((9 / 1000 : ℚ) : ℝ)) (((0 : ℚ) : ℝ))

/-- The pipeline's computed distance of `cexP3` (about 2.0015 km). -/
noncomputable def cexPDist3 : ℝ :=
  calculateDistance 0 0 (((18 / 1000 : ℚ) : ℝ)) (((0 : ℚ) : ℝ))

/-- The pipeline's computed distance of `cexP4` (about 6.4493 km). -/
noncomputable def cexPDist4 : ℝ :=
  calculateDistance 0 0 (((58 / 1000 : ℚ) : ℝ)) (((0 : ℚ) : ℝ))

/-- `cexP1` as annotated by the distance sort. -/
noncomputable def cexP1r : Station ℝ := { cexP1 with distance := some cexPDist1 }

/-- `cexP2` as annotated by the distance sort. -/
noncomputable def cexP2r : Station ℝ := { cexP2 with distance := some cexPDist2 }

/-- `cexP3` as annotated by the distance sort. -/
noncomputable def cexP3r : Station ℝ := { cexP3 with distance := some cexPDist3 }

/-- `cexP4` as annotated by the distance sort. -/
noncomputable def cexP4r : Station ℝ := { cexP4 with distance := some cexPDist4 }

theorem jsInsert_perm {β : Type} (le : β → β → Bool) (a : β) :
    ∀ l : List β, List.Perm (jsInsert le a l) (a :: l) := by
  intro l
  induction l with
  | nil => exact List.Perm.refl _
  | cons b l ih =>
    by_cases h : le a b = true
    · simp [jsInsert, h]
    · simp only [jsInsert, if_neg h]
      exact (ih.cons b).trans (List.Perm.swap a b l)

theorem jsSort_perm {β : Type} (le : β → β → Bool) :
    ∀ l : List β, List.Perm (jsSort le l) l := by
  intro l
  induction l with
  | nil => exact List.Perm.refl _
  | cons a l ih =>
    exact ((jsInsert_perm le a (jsSort le l)).trans (ih.cons a))

theorem mem_jsSort {β : Type} {le : β → β → Bool} {x : β} {l : List β} :
    x ∈ jsSort le l ↔ x ∈ l :=
  (jsSort_perm le l).mem_iff

theorem mem_jsInsert {β : Type} {le : β → β → Bool} {x a : β} {l : List β} :
    x ∈ jsInsert le a l ↔ x = a ∨ x ∈ l := by
  rw [(jsInsert_perm le a l).mem_iff, List.mem_cons]

theorem jsInsert_pairwise {β : Type} {le : β → β → Bool}
    (total : ∀ x y, le x y = true ∨ le y x = true)
    (trans : ∀ x y z, le x y = true → le y z = true → le x z = true)
    (a : β) {l : List β} (h : l.Pairwise fun x y => le x y = true) :
    (jsInsert le a l).Pairwise fun x y => le x y = true := by
  induction l with
  | nil => simp [jsInsert]
  | cons b l ih =>
    rcases List.pairwise_cons.1 h with ⟨hb, hl⟩
    by_cases hab : le a b = true
    · simp only [jsInsert, if_pos hab]
      refine List.pairwise_cons.2 ⟨?_, h⟩
      intro x hx
      rcases List.mem_cons.1 hx with rfl | hx
      · exact hab
      · exact trans a b x hab (hb x hx)
    · simp only [jsInsert, if_neg hab]
      refine List.pairwise_cons.2 ⟨?_, ih hl⟩
      intro x hx
      rcases mem_jsInsert.1 hx with rfl | hx
      · rcases total x b with hxb | hbx
        · exact absurd hxb hab
        · exact hbx
      · exact hb x hx

theorem jsSort_pairwise {β : Type} {le : β → β → Bool}
    (total : ∀ x y, le x y = true ∨ le y x = true)
    (trans : ∀ x y z, le x y = true → le y z = true → le x z = true)
    (l : List β) : (jsSort le l).Pairwise fun x y => le x y = true := by
  induction l with
  | nil => simp [jsSort]
  | cons a l ih => exact jsInsert_pairwise total trans a ih

theorem leDistS_total {α : Type} [LinearOrder α] (x y : Station α) :
    leDistS x y = true ∨ leDistS y x = true := by
  unfold leDistS leDistOpt
  cases hx : x.distance with
  | none => cases hy : y.distance <;> simp
  | some dx =>
    cases hy : y.distance with
    | none => simp
    | some dy =>
      rcases le_total dx dy with h | h
      · left; simpa using h
      · right; simpa using h

theorem leDistS_trans {α : Type} [LinearOrder α] (x y z : Station α) :
    leDistS x y = true → leDistS y z = true → leDistS x z = true := by
  unfold leDistS leDistOpt
  cases hx : x.distance with
  | none =>
    cases hy : y.distance with
    | none => cases hz : z.distance <;> simp
    | some dy => simp
  | some dx =>
    cases hy : y.distance with
    | none =>
      cases hz : z.distance with
      | none => simp
      | some dz => simp
    | some dy =>
      cases hz : z.distance with
      | none => simp
      | some dz =>
        intro h1 h2
        simp only [decide_eq_true_eq] at h1 h2 ⊢
        exact le_trans h1 h2

/-- `sortByDistanceWith` establishes the comparator order. -/
theorem sortByDistanceWith_pairwise {α : Type} [LinearOrder α]
    (d : Station α → Option α) (stations : List (Station α)) :
    (sortByDistanceWith d stations).Pairwise fun x y => leDistS x y = true :=
  jsSort_pairwise leDistS_total leDistS_trans _

theorem mem_sortByDistanceWith {α : Type} [LinearOrder α] {d : Station α → Option α}
    {stations : List (Station α)} {s : Station α} :
    s ∈ sortByDistanceWith d stations ↔ s ∈ annotate d stations :=
  mem_jsSort

theorem distLe_iff {α : Type} [LinearOrder α] {dist : Option α} {k : α} :
    distLe dist k = true ↔ ∃ x, dist = some x ∧ x ≤ k := by
  cases dist <;> simp [distLe]

theorem priceFilter_iff {v : FVal} :
    priceFilter v = true ↔ v ≠ FVal.null ∧ v ≠ FVal.empty := by
  cases v <;> simp [priceFilter]

theorem mem_filter_passFilter {α : Type} [LinearOrderedField α] {radius : α}
    {l : List (Station α)} {s : Station α} :
    s ∈ l.filter (passFilter radius) ↔
      s ∈ l ∧ (s.price ≠ FVal.null ∧ s.price ≠ FVal.empty) ∧
        ∃ x, s.distance = some x ∧ x ≤ radius := by
  rw [List.mem_filter, passFilter, Bool.and_eq_true, priceFilter_iff, distLe_iff, and_assoc]

/-- Every candidate passes one of the two radius filters. -/
theorem candidatesWith_pass {α : Type} [LinearOrderedField α] {d : Station α → Option α}
    {allStations : List (Station α)} {t : Station α}
    (ht : t ∈ candidatesWith d allStations) :
    passFilter (50 : α) t = true ∨ passFilter (100 : α) t = true := by
  unfold candidatesWith at ht
  split at ht
  · exact Or.inr (List.mem_filter.1 ht).2
  · exact Or.inl (List.mem_filter.1 ht).2

/-- Every ranked result carries a finite computed distance. -/
theorem rankWith_mem_some_distance {α : Type} [LinearOrderedField α]
    {d : Station α → Option α} {allStations : List (Station α)} {t : Station α}
    (ht : t ∈ rankWith d allStations) : ∃ x, t.distance = some x := by
  have h1 : t ∈ jsSort leRank (candidatesWith d allStations) :=
    List.take_subset 10 _ ht
  have h2 : t ∈ candidatesWith d allStations := mem_jsSort.1 h1
  rcases candidatesWith_pass h2 with hp | hp <;>
  · unfold passFilter at hp
    rw [Bool.and_eq_true] at hp
    rcases distLe_iff.1 hp.2 with ⟨x, hx, -⟩
    exact ⟨x, hx⟩

/-- C3: the candidate set before the final ordering consists exactly of the
annotated stations whose selected-fuel price field is non-null and
non-empty and whose computed distance is at most 50 km; when fewer than 5
such stations exist it is recomputed from scratch as the same filter at
100 km; and the final result has at most 10 entries. -/
theorem rank_candidates_characterized {α : Type} [LinearOrderedField α]
    (d : Station α → Option α) (allStations : List (Station α)) :
    (∀ s, s ∈ (sortByDistanceWith d allStations).filter (passFilter 50) ↔
      (s ∈ annotate d allStations ∧ (s.price ≠ FVal.null ∧ s.price ≠ FVal.empty) ∧
        ∃ x, s.distance = some x ∧ x ≤ 50)) ∧
    (∀ s, s ∈ (sortByDistanceWith d allStations).filter (passFilter 100) ↔
      (s ∈ annotate d allStations ∧ (s.price ≠ FVal.null ∧ s.price ≠ FVal.empty) ∧
        ∃ x, s.distance = some x ∧ x ≤ 100)) ∧
    (∀ s, s ∈ annotate d allStations ↔
      ∃ t ∈ allStations, s = { t with distance := d t }) ∧
    (5 ≤ ((sortByDistanceWith d allStations).filter (passFilter 50)).length →
      candidatesWith d allStations =
        (sortByDistanceWith d allStations).filter (passFilter 50)) ∧
    (((sortByDistanceWith d allStations).filter (passFilter 50)).length < 5 →
      candidatesWith d allStations =
        (sortByDistanceWith d allStations).filter (passFilter 100)) ∧
    (rankWith d allStations).length ≤ 10 := by
  refine ⟨?_, ?_, ?_, ?_, ?_, ?_⟩
  · intro s
    rw [mem_filter_passFilter, mem_sortByDistanceWith]
  · intro s
    rw [mem_filter_passFilter, mem_sortByDistanceWith]
  · intro s
    simp only [annotate, List.mem_map, eq_comm]
  · intro h
    unfold candidatesWith
    rw [if_neg (not_lt.2 h)]
  · intro h
    unfold candidatesWith
    rw [if_pos h]
  · exact List.length_take_le 10 _

/-- C8: a station with absent or unparseable coordinates is assigned the
infinite distance (`none`) by `sortByDistance`, every such station sorts
after every station with a finite distance, it fails both the 50 km and the
100 km radius filter, and it never appears in the ranked results. -/
theorem unparseable_station_excluded (s₀ : Station ℝ)
    (h : parseCoordinates s₀ = none) (allStations : List (Station ℝ))
    (refLat refLon : ℝ) :
    distReal refLat refLon s₀ = none ∧
    (s₀ ∈ allStations →
      { s₀ with distance := none } ∈ sortByDistance allStations refLat refLon) ∧
    (sortByDistance allStations refLat refLon).Pairwise
      (fun x y => x.distance = none → y.distance = none) ∧
    distLe (distReal refLat refLon s₀) (50 : ℝ) = false ∧
    distLe (distReal refLat refLon s₀) (100 : ℝ) = false ∧
    { s₀ with distance := none } ∉ rankStations allStations refLat refLon := by
  have hnone : distReal refLat refLon s₀ = none := by
    unfold distReal
    rw [h]
    rfl
  refine ⟨hnone, ?_, ?_, ?_, ?_, ?_⟩
  · intro h0
    unfold sortByDistance sortByDistanceWith
    refine mem_jsSort.2 ?_
    unfold annotate
    exact List.mem_map.2 ⟨s₀, h0, by rw [hnone]⟩
  · refine (sortByDistanceWith_pairwise _ _).imp ?_
    intro x y hxy hx
    unfold leDistS leDistOpt at hxy
    rw [hx] at hxy
    cases hy : y.distance with
    | none => rfl
    | some dy => rw [hy] at hxy; cases hxy
  · rw [hnone]; rfl
  · rw [hnone]; rfl
  · intro hmem
    rcases rankWith_mem_some_distance hmem with ⟨x, hx⟩
    cases hx

theorem arctan_nonneg_of_nonneg {t : ℝ} (h : 0 ≤ t) : 0 ≤ Real.arctan t := by
  have hm := Real.arctan_strictMono.monotone h
  rwa [Real.arctan_zero] at hm

theorem atan2_nonneg {y x : ℝ} (hy : 0 ≤ y) (hx : 0 ≤ x) : 0 ≤ atan2 y x := by
  unfold atan2
  split_ifs with h1 h2 h3 h4 h5
  · exact arctan_nonneg_of_nonneg (div_nonneg hy h1.le)
  · linarith [h2.1]
  · linarith [h3.1]
  · linarith [Real.pi_pos]
  · linarith [h5.2]
  · exact le_refl 0

/-- In the exact-real idealisation, `calculateDistance` always returns a
non-negative value and returns zero at coinciding coordinate pairs.  These
are facts of the idealisation; the program computes in IEEE doubles, whose
rounding this embedding does not model. -/
theorem calculateDistance_nonneg_and_refl :
    (∀ lat1 lon1 lat2 lon2 : ℝ, 0 ≤ calculateDistance lat1 lon1 lat2 lon2) ∧
    (∀ lat lon : ℝ, calculateDistance lat lon lat lon = 0) := by
  constructor
  · intro lat1 lon1 lat2 lon2
    simp only [calculateDistance]
    refine mul_nonneg (by norm_num) (mul_nonneg (by norm_num) ?_)
    exact atan2_nonneg (Real.sqrt_nonneg _) (Real.sqrt_nonneg _)
  · intro lat lon
    have h0 : toRad 0 = 0 := by unfold toRad; ring
    simp only [calculateDistance, sub_self, h0, zero_div, Real.sin_zero, mul_zero,
      zero_mul, add_zero, Real.sqrt_zero, sub_zero, Real.sqrt_one]
    unfold atan2
    rw [if_pos one_pos]
    simp [Real.arctan_zero]

/-- C9 counterexample: two distinct coordinate pairs (both at latitude 90,
longitudes 0 and 90) on which `calculateDistance` returns exactly 0, so
zero distance does not imply coinciding coordinates. -/
theorem calculateDistance_zero_at_distinct_pairs :
    calculateDistance 90 0 90 90 = 0 ∧
    ((90 : ℝ), (0 : ℝ)) ≠ ((90 : ℝ), (90 : ℝ)) := by
  constructor
  · have h90 : toRad 90 = Real.pi / 2 := by unfold toRad; ring
    have h0 : toRad 0 = 0 := by unfold toRad; ring
    simp only [calculateDistance, sub_self, sub_zero, h90, h0, zero_div,
      Real.sin_zero, Real.cos_pi_div_two, zero_mul, mul_zero, add_zero,
      zero_add, Real.sqrt_zero, Real.sqrt_one]
    unfold atan2
    rw [if_pos one_pos]
    simp [Real.arctan_zero]
  · intro h
    have := congrArg Prod.snd h
    norm_num at this

/-- On the meridian through the origin, the haversine distance from the
origin is exactly `6371 * toRad L` for latitudes `0 ≤ L < 180`.  Used to
build concrete stations at known distances in the counterexamples. -/
theorem calculateDistance_meridian (L : ℝ) (hL0 : 0 ≤ L) (hL1 : L < 180) :
    calculateDistance 0 0 L 0 = 6371 * toRad L := by
  have hpi := Real.pi_pos
  have ht0 : 0 ≤ toRad L / 2 := by
    unfold toRad; positivity
  have ht1 : toRad L / 2 < Real.pi / 2 := by
    unfold toRad
    nlinarith [mul_pos (sub_pos.2 hL1) hpi]
  have hlon : toRad 0 = 0 := by unfold toRad; ring
  simp only [calculateDistance, sub_zero, sub_self, hlon, zero_div, Real.sin_zero,
    mul_zero, add_zero]
  set t := toRad L / 2 with ht
  have hsin : 0 ≤ Real.sin t := Real.sin_nonneg_of_nonneg_of_le_pi ht0 (by linarith)
  have hcos : 0 < Real.cos t := Real.cos_pos_of_mem_Ioo ⟨by linarith, ht1⟩
  have hs : Real.sqrt (Real.sin t * Real.sin t) = Real.sin t := Real.sqrt_mul_self hsin
  have h1a : 1 - Real.sin t * Real.sin t = Real.cos t * Real.cos t := by
    have hsq := Real.sin_sq_add_cos_sq t
    nlinarith [hsq]
  have hc : Real.sqrt (Real.cos t * Real.cos t) = Real.cos t := Real.sqrt_mul_self hcos.le
  rw [hs, h1a, hc]
  unfold atan2
  rw [if_pos hcos, ← Real.tan_eq_sin_div_cos, Real.arctan_tan (by linarith) ht1]
  rw [ht]
  ring

theorem ordering_swap_eq_lt {o : Ordering} : o.swap = Ordering.lt ↔ o = Ordering.gt := by
  cases o <;> decide

theorem ordering_swap_eq_gt {o : Ordering} : o.swap = Ordering.gt ↔ o = Ordering.lt := by
  cases o <;> decide

/-- The JS comparator `x - y` has an antisymmetric sign. -/
theorem ord3_swap {α : Type} [LinearOrder α] (x y : α) : ord3 y x = (ord3 x y).swap := by
  unfold ord3
  rcases lt_trichotomy x y with h | h | h
  · simp [h, not_lt.2 h.le, Ordering.swap]
  · subst h
    simp [Ordering.swap]
  · simp [h, not_lt.2 h.le, Ordering.swap]

/-- The final ranking comparator has an antisymmetric sign: swapping the
arguments flips the returned `Ordering`. -/
theorem cmpRank_swap {α : Type} [LinearOrderedField α] (x y : Station α) :
    cmpRank y x = (cmpRank x y).swap := by
  unfold cmpRank
  cases hx : x.distance with
  | none =>
    cases hy : y.distance with
    | none => exact ord3_swap _ _
    | some dy => rfl
  | some dx =>
    cases hy : y.distance with
    | none => rfl
    | some dy =>
      dsimp only
      by_cases h : 5 < |dx - dy|
      · have h' : 5 < |dy - dx| := by rwa [abs_sub_comm]
        rw [if_pos h', if_pos h]
        exact ord3_swap _ _
      · have h' : ¬ 5 < |dy - dx| := by rwa [abs_sub_comm]
        rw [if_neg h', if_neg h]
        exact ord3_swap _ _

/-- An extended non-descending run is a chain for `comparator <= 0`. -/
theorem ascRun_chain {β : Type} {cmp : β → β → Ordering}
    (hanti : ∀ x y, cmp y x = (cmp x y).swap) :
    ∀ (t : List β) (prev : β),
      List.Chain' (fun a b => cmp a b ≠ Ordering.gt) (prev :: ascRun cmp prev t) := by
  intro t
  induction t with
  | nil => intro prev; simp [ascRun]
  | cons b t ih =>
    intro prev
    by_cases h : cmp b prev = Ordering.lt
    · simp [ascRun, h]
    · simp only [ascRun, if_neg h]
      refine List.chain'_cons.2 ⟨?_, ih b⟩
      intro hc
      exact h (by rw [hanti prev b, hc]; decide)

/-- A strictly-descending run is a chain for the flipped relation. -/
theorem descRun_chain {β : Type} (cmp : β → β → Ordering) :
    ∀ (t : List β) (prev : β),
      List.Chain' (fun a b => cmp b a ≠ Ordering.gt) (prev :: descRun cmp prev t) := by
  intro t
  induction t with
  | nil => intro prev; simp [descRun]
  | cons b t ih =>
    intro prev
    by_cases h : cmp b prev = Ordering.lt
    · simp only [descRun, if_pos h]
      refine List.chain'_cons.2 ⟨?_, ih b⟩
      rw [h]
      decide
    · simp [descRun, h]

/-- The initial run produced by `CountAndMakeRun` is locally sorted. -/
theorem v8Run_chain {β : Type} {cmp : β → β → Ordering}
    (hanti : ∀ x y, cmp y x = (cmp x y).swap) :
    ∀ l : List β, List.Chain' (fun a b => cmp a b ≠ Ordering.gt) (v8Run cmp l) := by
  intro l
  match l with
  | [] => simp [v8Run]
  | [a] => simp [v8Run]
  | a :: b :: t =>
    by_cases h : cmp b a = Ordering.lt
    · simp only [v8Run, if_pos h]
      rw [List.chain'_reverse]
      refine List.chain'_cons.2 ⟨?_, descRun_chain cmp t b⟩
      show cmp b a ≠ Ordering.gt
      rw [h]
      decide
    · simp only [v8Run, if_neg h]
      refine List.chain'_cons.2 ⟨?_, ascRun_chain hanti t b⟩
      intro hc
      exact h (by rw [hanti a b, hc]; decide)

/-- Bracket invariant of V8's binary search: with enough fuel the returned
position `p` is in bounds, the element to its left (if any) compares
`comparator(pivot, x) >= 0`, and the element at `p` (if any) compares
`comparator(pivot, y) < 0`. -/
theorem binSearchAux_spec {β : Type} (cmp : β → β → Ordering) (pivot : β) (l : List β) :
    ∀ fuel left right : ℕ, left ≤ right → right ≤ l.length → right - left ≤ fuel →
      (left = 0 ∨ ∃ x, l[left - 1]? = some x ∧ cmp pivot x ≠ Ordering.lt) →
      (right = l.length ∨ ∃ y, l[right]? = some y ∧ cmp pivot y = Ordering.lt) →
      binSearchAux cmp pivot l fuel left right ≤ l.length ∧
      (binSearchAux cmp pivot l fuel left right = 0 ∨
        ∃ x, l[binSearchAux cmp pivot l fuel left right - 1]? = some x ∧
          cmp pivot x ≠ Ordering.lt) ∧
      (binSearchAux cmp pivot l fuel left right = l.length ∨
        ∃ y, l[binSearchAux cmp pivot l fuel left right]? = some y ∧
          cmp pivot y = Ordering.lt) := by
  intro fuel
  induction fuel with
  | zero =>
    intro left right hlr hrlen _ hL hR
    have hleft : left = right := by omega
    subst hleft
    simp only [binSearchAux]
    exact ⟨hrlen, hL, hR⟩
  | succ fuel ih =>
    intro left right hlr hrlen hfuel hL hR
    by_cases hlt : left < right
    · have hmidlt : left + (right - left) / 2 < right := by omega
      have hmidlen : left + (right - left) / 2 < l.length := lt_of_lt_of_le hmidlt hrlen
      have hx : l[left + (right - left) / 2]? = some l[left + (right - left) / 2] :=
        List.getElem?_eq_getElem hmidlen
      simp only [binSearchAux, if_pos hlt, hx]
      by_cases hc : cmp pivot l[left + (right - left) / 2] = Ordering.lt
      · rw [if_pos hc]
        exact ih left (left + (right - left) / 2) (by omega) (le_of_lt hmidlen)
          (by omega) hL (Or.inr ⟨_, hx, hc⟩)
      · rw [if_neg hc]
        refine ih (left + (right - left) / 2 + 1) right (by omega) hrlen (by omega)
          (Or.inr ⟨_, ?_, hc⟩) hR
        simp only [Nat.add_sub_cancel]
        exact hx
    · have hleft : left = right := by omega
      subst hleft
      simp only [binSearchAux, if_neg hlt]
      exact ⟨hrlen, hL, hR⟩

/-- Splicing `pivot` into a locally sorted list keeps it locally sorted,
provided `pivot` is compatible with its two new neighbours. -/
theorem chain'_insert_split {β : Type} {R : β → β → Prop} (pivot : β) :
    ∀ (l : List β) (p : ℕ), List.Chain' R l → p ≤ l.length →
      (p = 0 ∨ ∃ x, l[p - 1]? = some x ∧ R x pivot) →
      (p = l.length ∨ ∃ y, l[p]? = some y ∧ R pivot y) →
      List.Chain' R (l.take p ++ pivot :: l.drop p) := by
  intro l
  induction l with
  | nil =>
    intro p _ hp _ _
    have : p = 0 := Nat.le_zero.1 hp
    subst this
    simp
  | cons a t ih =>
    intro p hl hp hL hR
    cases p with
    | zero =>
      simp only [List.take_zero, List.drop_zero, List.nil_append]
      refine List.chain'_cons.2 ⟨?_, hl⟩
      rcases hR with h0 | ⟨y, hy, hRy⟩
      · exact absurd h0 (by simp)
      · rw [List.getElem?_cons_zero] at hy
        cases hy
        exact hRy
    | succ q =>
      have hq : q ≤ t.length := by simpa using hp
      simp only [List.take_succ_cons, List.drop_succ_cons, List.cons_append]
      rw [List.chain'_cons']
      constructor
      · intro y hy
        cases hq0 : q with
        | zero =>
          subst hq0
          simp only [List.take_zero, List.nil_append, List.head?_cons,
            Option.mem_def, Option.some.injEq] at hy
          subst hy
          rcases hL with h0 | ⟨x, hx, hRx⟩
          · cases h0
          · rw [List.getElem?_cons_zero] at hx
            cases hx
            exact hRx
        | succ q' =>
          subst hq0
          cases t with
          | nil => simp at hq
          | cons b t' =>
            simp only [List.take_succ_cons, List.cons_append, List.head?_cons,
              Option.mem_def, Option.some.injEq] at hy
            subst hy
            exact (List.chain'_cons.1 hl).1
      · refine ih q (List.Chain'.tail hl) hq ?_ ?_
        · cases hq0 : q with
          | zero => exact Or.inl rfl
          | succ q' =>
            subst hq0
            rcases hL with h0 | ⟨x, hx, hRx⟩
            · cases h0
            · refine Or.inr ⟨x, ?_, hRx⟩
              simpa using hx
        · rcases hR with h0 | ⟨y, hy, hRy⟩
          · refine Or.inl (by simpa using h0)
          · refine Or.inr ⟨y, ?_, hRy⟩
            simpa using hy

/-- One `BinaryInsertionSort` step keeps the prefix locally sorted. -/
theorem binInsertOne_chain {β : Type} {cmp : β → β → Ordering}
    (hanti : ∀ x y, cmp y x = (cmp x y).swap) {sorted : List β} (pivot : β)
    (h : List.Chain' (fun a b => cmp a b ≠ Ordering.gt) sorted) :
    List.Chain' (fun a b => cmp a b ≠ Ordering.gt) (binInsertOne cmp sorted pivot) := by
  obtain ⟨hle, hL, hR⟩ :=
    binSearchAux_spec cmp pivot sorted sorted.length 0 sorted.length
      (Nat.zero_le _) le_rfl (by omega) (Or.inl rfl) (Or.inl rfl)
  unfold binInsertOne
  refine chain'_insert_split pivot sorted _ h hle ?_ ?_
  · rcases hL with h0 | ⟨x, hx, hcx⟩
    · exact Or.inl h0
    · refine Or.inr ⟨x, hx, ?_⟩
      intro hg
      apply hcx
      rw [hanti pivot x] at hg
      exact ordering_swap_eq_gt.1 hg
  · rcases hR with h0 | ⟨y, hy, hcy⟩
    · exact Or.inl h0
    · refine Or.inr ⟨y, hy, ?_⟩
      rw [hcy]
      decide

/-- `BinaryInsertionSort` keeps the list locally sorted. -/
theorem binInsertAll_chain {β : Type} {cmp : β → β → Ordering}
    (hanti : ∀ x y, cmp y x = (cmp x y).swap) :
    ∀ (rest sorted : List β),
      List.Chain' (fun a b => cmp a b ≠ Ordering.gt) sorted →
      List.Chain' (fun a b => cmp a b ≠ Ordering.gt) (binInsertAll cmp sorted rest) := by
  intro rest
  induction rest with
  | nil => intro sorted h; exact h
  | cons x rest ih =>
    intro sorted h
    exact ih _ (binInsertOne_chain hanti x h)

/-- Local sortedness of V8's sort (no-merge regime): every pair of
CONSECUTIVE output elements satisfies `comparator(a, b) <= 0`.  This needs
only the sign-antisymmetry of the comparator, not consistency, so it holds
for the inconsistent ranking comparator as well. -/
theorem v8Sort_chain {β : Type} {cmp : β → β → Ordering}
    (hanti : ∀ x y, cmp y x = (cmp x y).swap) (l : List β) :
    List.Chain' (fun a b => cmp a b ≠ Ordering.gt) (v8Sort cmp l) :=
  binInsertAll_chain hanti (v8Rest cmp l) (v8Run cmp l) (v8Run_chain hanti l)

theorem ord3_eq_lt {α : Type} [LinearOrder α] {x y : α} (h : x < y) :
    ord3 x y = Ordering.lt := by
  unfold ord3
  rw [if_pos h]

theorem ord3_eq_gt {α : Type} [LinearOrder α] {x y : α} (h : y < x) :
    ord3 x y = Ordering.gt := by
  unfold ord3
  rw [if_neg (not_lt.2 h.le), if_pos h]

theorem cmpDistS_some_some {α : Type} [LinearOrder α] {x y : Station α} {dx dy : α}
    (hx : x.distance = some dx) (hy : y.distance = some dy) :
    cmpDistS x y = ord3 dx dy := by
  unfold cmpDistS
  rw [hx, hy]

theorem cmpRank_some_some {α : Type} [LinearOrderedField α] {x y : Station α} {dx dy : α}
    (hx : x.distance = some dx) (hy : y.distance = some dy) :
    cmpRank x y = (if 5 < |dx - dy| then ord3 dx dy
      else ord3 (priceOr999 x.price) (priceOr999 y.price)) := by
  unfold cmpRank
  rw [hx, hy]

/-- C1 (amended): in every ranked result list of the pipeline under V8's
sort (faithfully modelled for searches over fewer than 64 stations, the
regime with no merge passes), whenever two CONSECUTIVE stations' computed
distances differ by more than 5 km, the closer one appears first,
regardless of prices.  For non-consecutive pairs the guarantee fails — see
the counterexample, where the sort reverses a descending run wholesale. -/
theorem rank_far_consecutive_v8 (allStations : List (Station ℝ)) (refLat refLon : ℝ)
    (_hlen : allStations.length < 64) :
    (rankStationsV8 allStations refLat refLon).Chain' farOrdered := by
  unfold rankStationsV8 rankWithV8
  refine List.Chain'.take ?_ 10
  refine (v8Sort_chain cmpRank_swap _).imp ?_
  intro x y hxy dx dy hx hy hgap
  rw [cmpRank_some_some hx hy, if_pos hgap] at hxy
  by_cases h1 : dx < dy
  · exact h1
  · exfalso
    by_cases h2 : dy < dx
    · exact hxy (ord3_eq_gt h2)
    · have heq : dx = dy := le_antisymm (not_lt.1 h2) (not_lt.1 h1)
      rw [heq, sub_self, abs_zero] at hgap
      linarith

theorem rank_far_consecutive_v8_witness :
    ([cexA] : List (Station ℝ)).length < 64 ∧
    (rankStationsV8 [cexA] 0 0).Chain' farOrdered :=
  ⟨by norm_num, rank_far_consecutive_v8 [cexA] 0 0 (by norm_num)⟩

/-- C2 (amended): in every ranked result list of the pipeline under V8's
sort (faithfully modelled for searches over fewer than 64 stations),
whenever two CONSECUTIVE stations' computed distances differ by at most
5 km, they are ordered by ascending price with a missing price treated as
999; in particular a two-element result with stations at 12 km (price
1.75) and 10 km (price 1.80) orders the cheaper first.  For
non-consecutive pairs the guarantee fails — see the counterexample. -/
theorem rank_near_price_consecutive_v8 (allStations : List (Station ℝ))
    (refLat refLon : ℝ) (_hlen : allStations.length < 64) :
    (rankStationsV8 allStations refLat refLon).Chain' nearPriceOrdered := by
  unfold rankStationsV8 rankWithV8
  refine List.Chain'.take ?_ 10
  refine (v8Sort_chain cmpRank_swap _).imp ?_
  intro x y hxy dx dy hx hy hle
  rw [cmpRank_some_some hx hy, if_neg (not_lt.2 hle)] at hxy
  rcases le_or_lt (priceOr999 x.price) (priceOr999 y.price) with h | h
  · exact h
  · exact absurd (ord3_eq_gt h) hxy

theorem rank_near_price_consecutive_v8_witness :
    ([cexA] : List (Station ℝ)).length < 64 ∧
    (rankStationsV8 [cexA] 0 0).Chain' nearPriceOrdered :=
  ⟨by norm_num, rank_near_price_consecutive_v8 [cexA] 0 0 (by norm_num)⟩

/-- C1 counterexample: on the three concrete stations `cexA` (0 km, price
1.80), `cexB` (about 4 km, price 1.75) and `cexC` (about 8 km, price 1.70),
the final comparator is strictly descending on both adjacent pairs (each
within 5 km, prices decreasing), so V8's `CountAndMakeRun` reverses the
whole run and the pipeline returns C, B, A.  The station at about 8 km
thus appears before the station at 0 km although their distances differ by
more than 5 km — refuting the claim that the closer of such a pair always
comes first. -/
theorem rank_far_pairs_v8_cex :
    rankStationsV8 [cexA, cexB, cexC] 0 0 = [cexCr, cexBr, cexAr] ∧
    5 < |cexDistC - cexDistA| ∧ cexDistA < cexDistC := by
  have hpiL : Real.pi < 3.15 := Real.pi_lt_d2
  have hpiG : 3.14 < Real.pi := Real.pi_gt_d2
  have hcast0 : ((0 : ℚ) : ℝ) = 0 := by norm_num
  have hcastB : ((36 / 1000 : ℚ) : ℝ) = 36 / 1000 := by norm_num
  have hcastC : ((72 / 1000 : ℚ) : ℝ) = 72 / 1000 := by norm_num
  have hA : cexDistA = 0 := by
    unfold cexDistA
    rw [hcast0, calculateDistance_meridian 0 le_rfl (by norm_num)]
    unfold toRad; ring
  have hB : cexDistB = 6371 * 36 / 180000 * Real.pi := by
    unfold cexDistB
    rw [hcastB, hcast0, calculateDistance_meridian (36 / 1000) (by norm_num) (by norm_num)]
    unfold toRad; ring
  have hC : cexDistC = 6371 * 72 / 180000 * Real.pi := by
    unfold cexDistC
    rw [hcastC, hcast0, calculateDistance_meridian (72 / 1000) (by norm_num) (by norm_num)]
    unfold toRad; ring
  have hABlt : cexDistA < cexDistB := by rw [hA, hB]; positivity
  have hBClt : cexDistB < cexDistC := by rw [hB, hC]; nlinarith
  have hB50 : cexDistB ≤ 50 := by rw [hB]; nlinarith
  have hC50 : cexDistC ≤ 50 := by rw [hC]; nlinarith
  have hBAgap : ¬ 5 < |cexDistB - cexDistA| := by
    rw [hA, hB, sub_zero, abs_of_nonneg (by positivity)]
    push_neg
    nlinarith
  have hCBgap : ¬ 5 < |cexDistC - cexDistB| := by
    rw [hB, hC, abs_of_nonneg (by nlinarith)]
    push_neg
    nlinarith
  have hCAgap : 5 < |cexDistC - cexDistA| := by
    rw [hA, hC, sub_zero, abs_of_nonneg (by positivity)]
    nlinarith
  -- annotation computes exactly the three distances above
  have hann : annotate (distReal 0 0) [cexA, cexB, cexC] = [cexAr, cexBr, cexCr] := rfl
  -- phase 1: the distance comparator sees an ascending run, so the order
  -- A, B, C is unchanged
  have cd21 : cmpDistS cexBr cexAr = Ordering.gt := by
    rw [cmpDistS_some_some rfl rfl]
    exact ord3_eq_gt hABlt
  have cd32 : cmpDistS cexCr cexBr = Ordering.gt := by
    rw [cmpDistS_some_some rfl rfl]
    exact ord3_eq_gt hBClt
  have hsort1 : v8Sort cmpDistS [cexAr, cexBr, cexCr] = [cexAr, cexBr, cexCr] := by
    simp [v8Sort, v8Run, v8Rest, ascRun, ascRest, binInsertAll, cd21, cd32]
  -- all three stations pass both radius filters
  have p50A : passFilter (50 : ℝ) cexAr = true := by
    have hle : cexDistA ≤ 50 := by rw [hA]; norm_num
    simp [passFilter, cexAr, cexA, priceFilter, distLe, hle]
  have p50B : passFilter (50 : ℝ) cexBr = true := by
    simp [passFilter, cexBr, cexB, priceFilter, distLe, hB50]
  have p50C : passFilter (50 : ℝ) cexCr = true := by
    simp [passFilter, cexCr, cexC, priceFilter, distLe, hC50]
  have p100A : passFilter (100 : ℝ) cexAr = true := by
    have hle : cexDistA ≤ 100 := by rw [hA]; norm_num
    simp [passFilter, cexAr, cexA, priceFilter, distLe, hle]
  have p100B : passFilter (100 : ℝ) cexBr = true := by
    have hle : cexDistB ≤ 100 := le_trans hB50 (by norm_num)
    simp [passFilter, cexBr, cexB, priceFilter, distLe, hle]
  have p100C : passFilter (100 : ℝ) cexCr = true := by
    have hle : cexDistC ≤ 100 := le_trans hC50 (by norm_num)
    simp [passFilter, cexCr, cexC, priceFilter, distLe, hle]
  have hf50 : List.filter (passFilter 50) [cexAr, cexBr, cexCr] = [cexAr, cexBr, cexCr] := by
    simp [List.filter_cons, p50A, p50B, p50C]
  have hf100 : List.filter (passFilter 100) [cexAr, cexBr, cexCr] = [cexAr, cexBr, cexCr] := by
    simp [List.filter_cons, p100A, p100B, p100C]
  have hcand : candidatesV8 (distReal 0 0) [cexA, cexB, cexC] = [cexAr, cexBr, cexCr] := by
    unfold candidatesV8 sortByDistanceV8
    rw [hann, hsort1, hf50, hf100]
    have hlen : ([cexAr, cexBr, cexCr] : List (Station ℝ)).length < 5 := by simp
    rw [if_pos hlen]
  -- the final comparator is strictly descending on both adjacent pairs
  have cr21 : cmpRank cexBr cexAr = Ordering.lt := by
    rw [cmpRank_some_some rfl rfl, if_neg hBAgap]
    refine ord3_eq_lt ?_
    show priceOr999 cexB.price < priceOr999 cexA.price
    norm_num [cexA, cexB, priceOr999]
  have cr32 : cmpRank cexCr cexBr = Ordering.lt := by
    rw [cmpRank_some_some rfl rfl, if_neg hCBgap]
    refine ord3_eq_lt ?_
    show priceOr999 cexC.price < priceOr999 cexB.price
    norm_num [cexB, cexC, priceOr999]
  have hv8 : v8Sort cmpRank [cexAr, cexBr, cexCr] = [cexCr, cexBr, cexAr] := by
    simp [v8Sort, v8Run, v8Rest, descRun, descRest, binInsertAll, cr21, cr32]
  refine ⟨?_, hCAgap, by rw [hA]; rw [hC]; positivity⟩
  unfold rankStationsV8 rankWithV8
  rw [hcand, hv8]
  rfl

/-- C2 counterexample: on the four concrete stations `cexP1` (0 km, price
1.80), `cexP2` (about 1 km, price 1.90), `cexP3` (about 2 km, price 1.70)
and `cexP4` (about 6.45 km, price 1.60), V8's sort detects the ascending
run P1, P2, binary-inserts P3 in front of it, and then binary-inserts P4 at
the end after probing only P1 and P2 (both more than 5 km closer than P4),
returning P3, P1, P2, P4.  The station at about 2 km with price 1.70 thus
appears before the station at about 6.45 km with price 1.60 although their
distances differ by at most 5 km — refuting the claim that every such pair
is ordered by ascending price. -/
theorem rank_near_price_pairs_v8_cex :
    rankStationsV8 [cexP1, cexP2, cexP3, cexP4] 0 0 = [cexP3r, cexP1r, cexP2r, cexP4r] ∧
    |cexPDist3 - cexPDist4| ≤ 5 ∧
    priceOr999 cexP4.price < priceOr999 cexP3.price := by
  have hpiL : Real.pi < 3.15 := Real.pi_lt_d2
  have hpiG : 3.14 < Real.pi := Real.pi_gt_d2
  have hcast0 : ((0 : ℚ) : ℝ) = 0 := by norm_num
  have hcast2 : ((9 / 1000 : ℚ) : ℝ) = 9 / 1000 := by norm_num
  have hcast3 : ((18 / 1000 : ℚ) : ℝ) = 18 / 1000 := by norm_num
  have hcast4 : ((58 / 1000 : ℚ) : ℝ) = 58 / 1000 := by norm_num
  have h1 : cexPDist1 = 0 := by
    unfold cexPDist1
    rw [hcast0, calculateDistance_meridian 0 le_rfl (by norm_num)]
    unfold toRad; ring
  have h2 : cexPDist2 = 6371 * 9 / 180000 * Real.pi := by
    unfold cexPDist2
    rw [hcast2, hcast0, calculateDistance_meridian (9 / 1000) (by norm_num) (by norm_num)]
    unfold toRad; ring
  have h3 : cexPDist3 = 6371 * 18 / 180000 * Real.pi := by
    unfold cexPDist3
    rw [hcast3, hcast0, calculateDistance_meridian (18 / 1000) (by norm_num) (by norm_num)]
    unfold toRad; ring
  have h4 : cexPDist4 = 6371 * 58 / 180000 * Real.pi := by
    unfold cexPDist4
    rw [hcast4, hcast0, calculateDistance_meridian (58 / 1000) (by norm_num) (by norm_num)]
    unfold toRad; ring
  have h12 : cexPDist1 < cexPDist2 := by rw [h1, h2]; positivity
  have h23 : cexPDist2 < cexPDist3 := by rw [h2, h3]; nlinarith
  have h34 : cexPDist3 < cexPDist4 := by rw [h3, h4]; nlinarith
  have hd2_50 : cexPDist2 ≤ 50 := by rw [h2]; nlinarith
  have hd3_50 : cexPDist3 ≤ 50 := by rw [h3]; nlinarith
  have hd4_50 : cexPDist4 ≤ 50 := by rw [h4]; nlinarith
  -- distance gaps: pairs among P1..P3 are within 5 km, P4 is more than
  -- 5 km from P1 and P2 but within 5 km of P3
  have g21 : ¬ 5 < |cexPDist2 - cexPDist1| := by
    rw [h1, h2, sub_zero, abs_of_nonneg (by positivity)]
    push_neg
    nlinarith
  have g32 : ¬ 5 < |cexPDist3 - cexPDist2| := by
    rw [h2, h3, abs_of_nonneg (by nlinarith)]
    push_neg
    nlinarith
  have g31 : ¬ 5 < |cexPDist3 - cexPDist1| := by
    rw [h1, h3, sub_zero, abs_of_nonneg (by positivity)]
    push_neg
    nlinarith
  have g41 : 5 < |cexPDist4 - cexPDist1| := by
    rw [h1, h4, sub_zero, abs_of_nonneg (by positivity)]
    nlinarith
  have g42 : 5 < |cexPDist4 - cexPDist2| := by
    rw [h2, h4, abs_of_nonneg (by nlinarith)]
    nlinarith
  have g34 : |cexPDist3 - cexPDist4| ≤ 5 := by
    rw [h3, h4, abs_of_nonpos (by nlinarith)]
    nlinarith
  have hann : annotate (distReal 0 0) [cexP1, cexP2, cexP3, cexP4] =
      [cexP1r, cexP2r, cexP3r, cexP4r] := rfl
  -- phase 1: ascending distances, the order is unchanged
  have cd21 : cmpDistS cexP2r cexP1r = Ordering.gt := by
    rw [cmpDistS_some_some rfl rfl]
    exact ord3_eq_gt h12
  have cd32 : cmpDistS cexP3r cexP2r = Ordering.gt := by
    rw [cmpDistS_some_some rfl rfl]
    exact ord3_eq_gt h23
  have cd43 : cmpDistS cexP4r cexP3r = Ordering.gt := by
    rw [cmpDistS_some_some rfl rfl]
    exact ord3_eq_gt h34
  have hsort1 : v8Sort cmpDistS [cexP1r, cexP2r, cexP3r, cexP4r] =
      [cexP1r, cexP2r, cexP3r, cexP4r] := by
    simp [v8Sort, v8Run, v8Rest, ascRun, ascRest, binInsertAll, cd21, cd32, cd43]
  -- all four stations pass both radius filters
  have p50P1 : passFilter (50 : ℝ) cexP1r = true := by
    have hle : cexPDist1 ≤ 50 := by rw [h1]; norm_num
    simp [passFilter, cexP1r, cexP1, priceFilter, distLe, hle]
  have p50P2 : passFilter (50 : ℝ) cexP2r = true := by
    simp [passFilter, cexP2r, cexP2, priceFilter, distLe, hd2_50]
  have p50P3 : passFilter (50 : ℝ) cexP3r = true := by
    simp [passFilter, cexP3r, cexP3, priceFilter, distLe, hd3_50]
  have p50P4 : passFilter (50 : ℝ) cexP4r = true := by
    simp [passFilter, cexP4r, cexP4, priceFilter, distLe, hd4_50]
  have p100P1 : passFilter (100 : ℝ) cexP1r = true := by
    have hle : cexPDist1 ≤ 100 := by rw [h1]; norm_num
    simp [passFilter, cexP1r, cexP1, priceFilter, distLe, hle]
  have p100P2 : passFilter (100 : ℝ) cexP2r = true := by
    have hle : cexPDist2 ≤ 100 := le_trans hd2_50 (by norm_num)
    simp [passFilter, cexP2r, cexP2, priceFilter, distLe, hle]
  have p100P3 : passFilter (100 : ℝ) cexP3r = true := by
    have hle : cexPDist3 ≤ 100 := le_trans hd3_50 (by norm_num)
    simp [passFilter, cexP3r, cexP3, priceFilter, distLe, hle]
  have p100P4 : passFilter (100 : ℝ) cexP4r = true := by
    have hle : cexPDist4 ≤ 100 := le_trans hd4_50 (by norm_num)
    simp [passFilter, cexP4r, cexP4, priceFilter, distLe, hle]
  have hf50 : List.filter (passFilter 50) [cexP1r, cexP2r, cexP3r, cexP4r] =
      [cexP1r, cexP2r, cexP3r, cexP4r] := by
    simp [List.filter_cons, p50P1, p50P2, p50P3, p50P4]
  have hf100 : List.filter (passFilter 100) [cexP1r, cexP2r, cexP3r, cexP4r] =
      [cexP1r, cexP2r, cexP3r, cexP4r] := by
    simp [List.filter_cons, p100P1, p100P2, p100P3, p100P4]
  have hcand : candidatesV8 (distReal 0 0) [cexP1, cexP2, cexP3, cexP4] =
      [cexP1r, cexP2r, cexP3r, cexP4r] := by
    unfold candidatesV8 sortByDistanceV8
    rw [hann, hsort1, hf50, hf100]
    have hlen : ([cexP1r, cexP2r, cexP3r, cexP4r] : List (Station ℝ)).length < 5 := by simp
    rw [if_pos hlen]
  -- the final comparator values the evaluation needs
  have f21 : cmpRank cexP2r cexP1r = Ordering.gt := by
    rw [cmpRank_some_some rfl rfl, if_neg g21]
    refine ord3_eq_gt ?_
    show priceOr999 cexP1.price < priceOr999 cexP2.price
    norm_num [cexP1, cexP2, priceOr999]
  have f32 : cmpRank cexP3r cexP2r = Ordering.lt := by
    rw [cmpRank_some_some rfl rfl, if_neg g32]
    refine ord3_eq_lt ?_
    show priceOr999 cexP3.price < priceOr999 cexP2.price
    norm_num [cexP2, cexP3, priceOr999]
  have f31 : cmpRank cexP3r cexP1r = Ordering.lt := by
    rw [cmpRank_some_some rfl rfl, if_neg g31]
    refine ord3_eq_lt ?_
    show priceOr999 cexP3.price < priceOr999 cexP1.price
    norm_num [cexP1, cexP3, priceOr999]
  have f41 : cmpRank cexP4r cexP1r = Ordering.gt := by
    rw [cmpRank_some_some rfl rfl, if_pos g41]
    refine ord3_eq_gt ?_
    show cexPDist1 < cexPDist4
    exact lt_trans h12 (lt_trans h23 h34)
  have f42 : cmpRank cexP4r cexP2r = Ordering.gt := by
    rw [cmpRank_some_some rfl rfl, if_pos g42]
    refine ord3_eq_gt ?_
    show cexPDist2 < cexPDist4
    exact lt_trans h23 h34
  -- run detection stops after P1, P2; P3 is binary-inserted in front;
  -- P4 is binary-inserted at the end
  have hrun : v8Run cmpRank [cexP1r, cexP2r, cexP3r, cexP4r] = [cexP1r, cexP2r] := by
    simp [v8Run, ascRun, f21, f32]
  have hrest : v8Rest cmpRank [cexP1r, cexP2r, cexP3r, cexP4r] = [cexP3r, cexP4r] := by
    simp [v8Rest, ascRest, f21, f32]
  have hins3 : binInsertOne cmpRank [cexP1r, cexP2r] cexP3r = [cexP3r, cexP1r, cexP2r] := by
    simp [binInsertOne, binSearchAux, f32, f31]
  have hins4 : binInsertOne cmpRank [cexP3r, cexP1r, cexP2r] cexP4r =
      [cexP3r, cexP1r, cexP2r, cexP4r] := by
    simp [binInsertOne, binSearchAux, f41, f42]
  have hv8 : v8Sort cmpRank [cexP1r, cexP2r, cexP3r, cexP4r] =
      [cexP3r, cexP1r, cexP2r, cexP4r] := by
    unfold v8Sort
    rw [hrun, hrest]
    show binInsertAll cmpRank [cexP1r, cexP2r] [cexP3r, cexP4r] = _
    unfold binInsertAll
    rw [hins3]
    unfold binInsertAll
    rw [hins4]
    rfl
  have hprice : priceOr999 cexP4.price < priceOr999 cexP3.price := by
    norm_num [cexP3, cexP4, priceOr999]
  refine ⟨?_, g34, hprice⟩
  unfold rankStationsV8 rankWithV8
  rw [hcand, hv8]
  rfl

theorem unparseable_station_excluded_witness :
    parseCoordinates w8Station = none ∧
    { w8Station with distance := none } ∉ rankStations [w8Station] 0 0 :=
  ⟨rfl, (unparseable_station_excluded w8Station rfl [w8Station] 0 0).2.2.2.2.2⟩

/-- C6 (amended): every postal-code input whose length is not exactly 5
(including the empty input) is rejected with the invalid-input error before
any station scan or external geocoding call.  (The code checks only the
length, not that the characters are digits — see the counterexample.) -/
theorem invalid_length_rejected {α : Type} (pc : String)
    (allStations : List (Station α)) (h : pc.length ≠ 5) :
    resolveCenter pc allStations = SearchAction.rejectInvalid := by
  unfold resolveCenter
  rw [if_pos (Or.inr h)]

theorem invalid_length_rejected_witness :
    ("123" : String).length ≠ 5 ∧
    resolveCenter "123" ([] : List (Station ℚ)) = SearchAction.rejectInvalid :=
  ⟨by decide, invalid_length_rejected "123" [] (by decide)⟩

/-- C6 counterexample: the input `"abcde"` is not a 5-digit postal code,
yet the validation (which tests only the length) lets it through, and with
no matching station the search reaches the external geocoding call instead
of being rejected. -/
theorem nondigit_code_not_rejected :
    isFiveDigitCode "abcde" = false ∧
    resolveCenter "abcde" ([] : List (Station ℚ)) = SearchAction.geocode "abcde" := by
  constructor
  · decide
  · decide

/-- `enrichOne` at a station with parseable coordinates, reduced to the
closest-match lookup. -/
theorem enrichOne_some {α γ : Type} [LinearOrderedField γ]
    {dm : ℚ × ℚ → OSMStation → γ} {osm : List OSMStation} {s : Station α}
    {c : ℚ × ℚ} (hc : parseCoordinates s = some c) :
    enrichOne dm osm s =
      (match findClosestOSM dm c osm with
        | some (closestOSM, _) =>
          (match closestOSM.displayName with
            | some n =>
              if n = "" then s
              else { s with brand := some n, brandSource := some "osm" }
            | none => s)
        | none => s) := by
  unfold enrichOne
  rw [hc]

/-- Either enrichment leaves a station untouched, or it sets `brand` to a
non-empty matched display name and `brandSource` to `"osm"`. -/
theorem enrichOne_cases {α γ : Type} [LinearOrderedField γ]
    (dm : ℚ × ℚ → OSMStation → γ) (osm : List OSMStation) (s : Station α) :
    enrichOne dm osm s = s ∨
      ∃ n, n ≠ "" ∧
        enrichOne dm osm s = { s with brand := some n, brandSource := some "osm" } := by
  cases hp : parseCoordinates s with
  | none =>
    left
    unfold enrichOne
    rw [hp]
  | some c =>
    rw [enrichOne_some hp]
    cases hf : findClosestOSM dm c osm with
    | none => exact Or.inl rfl
    | some pr =>
      obtain ⟨poi, dval⟩ := pr
      dsimp only
      cases hd : poi.displayName with
      | none => exact Or.inl rfl
      | some n =>
        dsimp only
        by_cases hn : n = ""
        · exact Or.inl (if_pos hn)
        · exact Or.inr ⟨n, hn, if_neg hn⟩

theorem closerStep_none {γ : Type} [LinearOrderedField γ]
    (dm : ℚ × ℚ → OSMStation → γ) (c : ℚ × ℚ) (q : OSMStation) :
    closerStep dm c none q =
      (if dm c q < 100 then some (q, dm c q) else none) := rfl

theorem closerStep_some {γ : Type} [LinearOrderedField γ]
    (dm : ℚ × ℚ → OSMStation → γ) (c : ℚ × ℚ) (bs : OSMStation) (bd : γ)
    (q : OSMStation) :
    closerStep dm c (some (bs, bd)) q =
      (if dm c q < 100 ∧ dm c q < bd then some (q, dm c q) else some (bs, bd)) := rfl

theorem foldl_closerStep_none {γ : Type} [LinearOrderedField γ]
    (dm : ℚ × ℚ → OSMStation → γ) (c : ℚ × ℚ) :
    ∀ l : List OSMStation, (∀ p ∈ l, (100 : γ) ≤ dm c p) →
      l.foldl (closerStep dm c) none = none := by
  intro l
  induction l with
  | nil => intro _; rfl
  | cons p t ih =>
    intro h
    rw [List.foldl_cons, closerStep_none,
      if_neg (not_lt.2 (h p (List.mem_cons_self p t)))]
    exact ih fun q hq => h q (List.mem_cons_of_mem p hq)

theorem foldl_closerStep_keep {γ : Type} [LinearOrderedField γ]
    (dm : ℚ × ℚ → OSMStation → γ) (c : ℚ × ℚ) (bs : OSMStation) (bd : γ) :
    ∀ l : List OSMStation, (∀ q ∈ l, bd ≤ dm c q) →
      l.foldl (closerStep dm c) (some (bs, bd)) = some (bs, bd) := by
  intro l
  induction l with
  | nil => intro _; rfl
  | cons q t ih =>
    intro h
    rw [List.foldl_cons, closerStep_some, if_neg]
    · exact ih fun q' hq' => h q' (List.mem_cons_of_mem q hq')
    · intro hcon
      exact absurd (h q (List.mem_cons_self q t)) (not_le.2 hcon.2)

theorem foldl_closerStep_min {γ : Type} [LinearOrderedField γ]
    (dm : ℚ × ℚ → OSMStation → γ) (c : ℚ × ℚ) (p : OSMStation)
    (h100 : dm c p < 100) :
    ∀ l : List OSMStation, p ∈ l → (∀ q ∈ l, q ≠ p → dm c p < dm c q) →
      ∀ acc : Option (OSMStation × γ),
        (acc = none ∨ ∃ b, acc = some b ∧ dm c p < b.2) →
        l.foldl (closerStep dm c) acc = some (p, dm c p) := by
  intro l
  induction l with
  | nil => intro hp; cases hp
  | cons x t ih =>
    intro hp hmin acc hacc
    rw [List.foldl_cons]
    by_cases hxp : x = p
    · subst hxp
      have hstep : closerStep dm c acc x = some (x, dm c x) := by
        rcases hacc with rfl | ⟨b, rfl, hb⟩
        · rw [closerStep_none, if_pos h100]
        · obtain ⟨bs, bd⟩ := b
          rw [closerStep_some, if_pos ⟨h100, hb⟩]
      rw [hstep]
      refine foldl_closerStep_keep dm c x (dm c x) t ?_
      intro q hq
      by_cases hq2 : q = x
      · subst hq2; exact le_refl _
      · exact (hmin q (List.mem_cons_of_mem x hq) hq2).le
    · have hpt : p ∈ t := by
        rcases List.mem_cons.1 hp with rfl | h
        · exact absurd rfl hxp
        · exact h
      have hdx : dm c p < dm c x := hmin x (List.mem_cons_self x t) hxp
      refine ih hpt (fun q hq hqp => hmin q (List.mem_cons_of_mem x hq) hqp)
        (closerStep dm c acc x) ?_
      rcases hacc with rfl | ⟨b, rfl, hb⟩
      · by_cases hx100 : dm c x < 100
        · exact Or.inr ⟨(x, dm c x), by rw [closerStep_none, if_pos hx100], hdx⟩
        · exact Or.inl (by rw [closerStep_none, if_neg hx100])
      · obtain ⟨bs, bd⟩ := b
        by_cases hcond : dm c x < 100 ∧ dm c x < bd
        · exact Or.inr ⟨(x, dm c x), by rw [closerStep_some, if_pos hcond], hdx⟩
        · exact Or.inr ⟨(bs, bd), by rw [closerStep_some, if_neg hcond], hb⟩

/-- C4: for a ranked candidate with parseable coordinates, a brand is
attached only when the nearest point of interest is strictly within 100
matching-distance units: if every point of interest is at least 100 away
(for example one at 150), the station is returned unchanged; and a point
of interest strictly within 100 (for example at 80) that is strictly
nearest and exposes a non-empty display name (built by `processElement`
from the brand, operator and name tags in that preference order) is
attached as the station's brand with source `"osm"`. -/
theorem enrich_brand_threshold {α γ : Type} [LinearOrderedField γ]
    (dm : ℚ × ℚ → OSMStation → γ) (osm : List OSMStation) (s : Station α)
    (c : ℚ × ℚ) (hc : parseCoordinates s = some c) :
    ((∀ p ∈ osm, (100 : γ) ≤ dm c p) → enrichOne dm osm s = s) ∧
    (∀ p ∈ osm, dm c p < 100 →
      (∀ q ∈ osm, q ≠ p → dm c p < dm c q) →
      ∀ n, p.displayName = some n → n ≠ "" →
        enrichOne dm osm s = { s with brand := some n, brandSource := some "osm" }) := by
  constructor
  · intro hfar
    rw [enrichOne_some hc]
    have hnone : findClosestOSM dm c osm = none :=
      foldl_closerStep_none dm c osm hfar
    rw [hnone]
  · intro p hp h100 hmin n hn hne
    rw [enrichOne_some hc]
    have hsome : findClosestOSM dm c osm = some (p, dm c p) :=
      foldl_closerStep_min dm c p h100 osm hp hmin none (Or.inl rfl)
    rw [hsome]
    simp only [hn]
    rw [if_neg hne]

theorem enrich_brand_threshold_witness :
    parseCoordinates wStation = some (5, 6) ∧
    enrichOne wDm [wPoi150] wStation = wStation ∧
    enrichOne wDm [wPoi80] wStation =
      { wStation with brand := some "Total", brandSource := some "osm" } :=
  ⟨rfl,
    (enrich_brand_threshold wDm [wPoi150] wStation (5, 6) rfl).1 (by decide),
    (enrich_brand_threshold wDm [wPoi80] wStation (5, 6) rfl).2 wPoi80 (by decide)
      (by decide) (by decide) "Total" rfl (by decide)⟩

/-- C5: enrichment never erases an existing brand: a station whose `brand`
field is non-null before `enrichStationsWithBrands` has a non-null `brand`
field at the same position afterwards. -/
theorem enrich_keeps_existing_brand {α γ : Type} [LinearOrderedField γ]
    (dm : ℚ × ℚ → OSMStation → γ) (r : FetchResult) (apiStations : List (Station α))
    (i : ℕ) (s t : Station α) (hs : apiStations[i]? = some s)
    (ht : (enrichStationsWithBrands dm r apiStations)[i]? = some t)
    (hb : s.brand ≠ none) : t.brand ≠ none := by
  unfold enrichStationsWithBrands at ht
  split_ifs at ht
  · rw [hs] at ht; cases ht; exact hb
  · rw [hs] at ht; cases ht; exact hb
  · rw [List.getElem?_map, hs, Option.map_some'] at ht
    cases ht
    rcases enrichOne_cases dm (fetchOSMFuelStations r) s with he | ⟨n, hn, he⟩
    · rw [he]; exact hb
    · rw [he]; simp

theorem enrich_keeps_existing_brand_witness :
    ([wStation])[0]? = some wStation ∧
    (enrichStationsWithBrands wDm FetchResult.networkError [wStation])[0]? =
      some wStation ∧
    wStation.brand ≠ none :=
  ⟨rfl, rfl,
    enrich_keeps_existing_brand wDm FetchResult.networkError [wStation] 0
      wStation wStation rfl rfl (by decide)⟩

/-- C7: when the external fetch fails (network error or non-2xx status) or
produces an empty point-of-interest list, `enrichStationsWithBrands`
returns the original candidate list unmodified.  (It also never raises:
`fetchOSMFuelStations` catches every fetch error, so the embedding is a
total function — see the header comment.) -/
theorem enrich_degrades_gracefully {α γ : Type} [LinearOrderedField γ]
    (dm : ℚ × ℚ → OSMStation → γ) (r : FetchResult)
    (apiStations : List (Station α)) :
    (fetchOSMFuelStations r = [] →
      enrichStationsWithBrands dm r apiStations = apiStations) ∧
    (∀ status : ℕ,
      enrichStationsWithBrands dm (FetchResult.httpError status) apiStations =
        apiStations) ∧
    enrichStationsWithBrands dm FetchResult.networkError apiStations = apiStations := by
  have hempty : ∀ r' : FetchResult, fetchOSMFuelStations r' = [] →
      enrichStationsWithBrands dm r' apiStations = apiStations := by
    intro r' h
    unfold enrichStationsWithBrands
    split_ifs with h1 h2
    · rfl
    · rfl
    · rw [h] at h2
      exact absurd rfl h2
  exact ⟨hempty r, fun status => hempty _ rfl, hempty _ rfl⟩

/-- C10: brand enrichment preserves the length and order of its input
list, and each output element agrees with the input element at the same
position on every field other than `brand` and `brandSource`. -/
theorem enrich_frame {α γ : Type} [LinearOrderedField γ]
    (dm : ℚ × ℚ → OSMStation → γ) (r : FetchResult)
    (apiStations : List (Station α)) :
    (enrichStationsWithBrands dm r apiStations).length = apiStations.length ∧
    ∀ i : ℕ, ∀ s, apiStations[i]? = some s →
      ∃ t, (enrichStationsWithBrands dm r apiStations)[i]? = some t ∧ sameFrame s t := by
  have hrefl : ∀ s : Station α, sameFrame s s :=
    fun s => ⟨rfl, rfl, rfl, rfl, rfl, rfl, rfl, rfl⟩
  unfold enrichStationsWithBrands
  split_ifs
  · exact ⟨rfl, fun i s hs => ⟨s, hs, hrefl s⟩⟩
  · exact ⟨rfl, fun i s hs => ⟨s, hs, hrefl s⟩⟩
  · constructor
    · exact List.length_map _ _
    · intro i s hs
      refine ⟨enrichOne dm (fetchOSMFuelStations r) s, ?_, ?_⟩
      · rw [List.getElem?_map, hs, Option.map_some']
      · rcases enrichOne_cases dm (fetchOSMFuelStations r) s with he | ⟨n, hn, he⟩
        · rw [he]; exact hrefl s
        · rw [he]; exact ⟨rfl, rfl, rfl, rfl, rfl, rfl, rfl, rfl⟩

end FuelFinder
